import Mathlib

/-!
Verification of the delivery-billing core: shallow embedding of the
tiered pricing engine, the distance cache resolver, the credit ledger,
the processing orchestrator and the upload start endpoint, with proofs
of the specified properties.

The repository carries two tier-matching implementations:
the PricingService method calculatePrice in
src/backend/src/pricing/pricing.service.ts, and the private
calculatePrice of the upload controller in
src/backend/src/common/perf.ts.  Both are embedded below, as
svcCalculatePrice and perfCalculatePrice.  JavaScript numbers are
modelled as exact rationals; Math.round x is modelled as the floor of
x + 1/2, which is its behaviour on every float (ties round toward
positive infinity).
-/

/-- Math.round, as used by both round2 helpers: floor of x + 1/2. -/
def jsRound (x : ℚ) : ℤ := ⌊x + 1/2⌋

/-- Evaluation rule for jsRound, used to compute rounded prices on
concrete inputs. -/
theorem jsRound_eq {x : ℚ} {z : ℤ} (h1 : (z : ℚ) ≤ x + 1/2) (h2 : x + 1/2 < z + 1) :
    jsRound x = z := by
  rw [jsRound, Int.floor_eq_iff]
  exact ⟨by exact_mod_cast h1, by exact_mod_cast h2⟩

/-- Number.EPSILON, the value 2 to the power -52, added by the
PricingService round2 before rounding. -/
def jsEpsilon : ℚ := 1 / 4503599627370496

/-- round2 of PricingService (pricing.service.ts line 41):
Math.round of (n + Number.EPSILON) * 100, divided by 100. -/
def round2 (n : ℚ) : ℚ := (jsRound ((n + jsEpsilon) * 100) : ℚ) / 100

/-- round2 as inlined in the perf.ts calculatePrice (no EPSILON):
Math.round of n * 100, divided by 100. -/
def perfRound2 (n : ℚ) : ℚ := (jsRound (n * 100) : ℚ) / 100

/-- A pricing_config row as read back from the database in
applyPricingToUpload: range_start, range_end, price and tva_rate, each
nullable (None models an SQL null; the toNumber conversion of the
source is the identity on the numeric values modelled here). -/
structure TierRow where
  range_start : Option ℚ
  range_end : Option ℚ
  price : Option ℚ
  tva_rate : Option ℚ
deriving DecidableEq, Repr

/-- A tier surviving normalizeConfig: numeric start and price, nullable
end, tva defaulted to 20. -/
structure NTier where
  start : ℚ
  range_end : Option ℚ
  price : ℚ
  tva : ℚ
deriving DecidableEq, Repr

/-- normalizeConfig of PricingService: keep rows whose range_start and
price are non-null, default tva_rate to 20, keep a null range_end. -/
def normalizeConfig (rows : List TierRow) : List NTier :=
  rows.filterMap (fun r =>
    match r.range_start, r.price with
    | some start, some price =>
        some { start := start
               range_end := r.range_end
               price := price
               tva := r.tva_rate.getD 20 }
    | _, _ => none)

/-- Insert a tier after every already-placed tier whose start does not
exceed it, mirroring one step of the stable JavaScript sort with
comparator a.start - b.start. -/
def insertByStart (t : NTier) : List NTier → List NTier
  | [] => [t]
  | u :: us => if u.start ≤ t.start then u :: insertByStart t us else t :: u :: us

/-- Stable sort of tiers by ascending range_start, the effect of
normalized.sort with comparator a.start - b.start. -/
def sortTiers (l : List NTier) : List NTier :=
  l.foldl (fun acc t => insertByStart t acc) []

/-- The matching loop of the PricingService calculatePrice
(pricing.service.ts lines 100 to 115): first tier with
dist at least start and, when the end is non-null, dist at most end --
the end bound is INCLUSIVE in this implementation. -/
def svcFindTier (dist : ℚ) : List NTier → Option NTier
  | [] => none
  | cfg :: rest =>
    match cfg.range_end with
    | none => if cfg.start ≤ dist then some cfg else svcFindTier dist rest
    | some e => if cfg.start ≤ dist ∧ dist ≤ e then some cfg else svcFindTier dist rest

/-- The Boolean tier predicate of the PricingService loop, used to
characterize svcFindTier as a first match. -/
def svcMatches (dist : ℚ) (cfg : NTier) : Bool :=
  match cfg.range_end with
  | none => decide (cfg.start ≤ dist)
  | some e => decide (cfg.start ≤ dist) && decide (dist ≤ e)

/-- The PriceCalculation record returned by the PricingService
calculatePrice.  The applied_range label is modelled structurally as
the (start, range_end) pair that formatRangeLabel renders. -/
structure PriceCalculation where
  price_ht : ℚ
  price_ttc : ℚ
  tva_amount : ℚ
  tva_rate : ℚ
  applied_range : ℚ × Option ℚ
deriving DecidableEq, Repr

/-- PricingService.calculatePrice (pricing.service.ts lines 93 to 131):
reject a negative distance, normalize and sort the grid, reject an
empty grid, take the first matching tier (end inclusive) falling back
to the first tier, and round each returned field. -/
def svcCalculatePrice (distanceKm : ℚ) (pricingConfig : List TierRow) :
    Except String PriceCalculation :=
  if distanceKm < 0 then .error "Distance invalide"
  else
    match sortTiers (normalizeConfig pricingConfig) with
    | [] => .error "Aucune grille tarifaire trouvee pour cet upload."
    | t0 :: rest =>
      let applied := (svcFindTier distanceKm (t0 :: rest)).getD t0
      let priceHT := applied.price
      let tvaRate := applied.tva
      let tvaAmount := priceHT * tvaRate / 100
      let priceTTC := priceHT + tvaAmount
      .ok { price_ht := round2 priceHT
            price_ttc := round2 priceTTC
            tva_amount := round2 tvaAmount
            tva_rate := round2 tvaRate
            applied_range := (applied.start, applied.range_end) }

/-- A pricing tier as stored in uploads.pricing_tiers and consumed by
the perf.ts calculatePrice: all fields numeric, nullable end. -/
structure PerfTier where
  range_start : ℚ
  range_end : Option ℚ
  price : ℚ
  tva_rate : ℚ
deriving DecidableEq, Repr

/-- The rounded price triple returned by the perf.ts calculatePrice. -/
structure PerfPrice where
  ht : ℚ
  ttc : ℚ
  tva : ℚ
deriving DecidableEq, Repr

/-- Insertion step for the stable sort of perf.ts tiers. -/
def insertPerfByStart (t : PerfTier) : List PerfTier → List PerfTier
  | [] => [t]
  | u :: us =>
      if u.range_start ≤ t.range_start then u :: insertPerfByStart t us
      else t :: u :: us

/-- Stable sort by range_start of the copied tier array in the perf.ts
calculatePrice. -/
def sortPerfTiers (l : List PerfTier) : List PerfTier :=
  l.foldl (fun acc t => insertPerfByStart t acc) []

/-- The matching loop of the perf.ts calculatePrice (lines 866 to 888):
first tier with distanceKm at least range_start and, when range_end is
non-null, distanceKm STRICTLY below range_end (closed-open). -/
def perfFindTier (d : ℚ) : List PerfTier → Option PerfTier
  | [] => none
  | tier :: rest =>
    if d ≥ tier.range_start ∧ (tier.range_end = none ∨ ∃ e, tier.range_end = some e ∧ d < e)
    then some tier else perfFindTier d rest

/-- The Boolean tier predicate of the perf.ts loop, which is also
exactly the closed-open selection rule stated by the spec. -/
def perfMatches (d : ℚ) (tier : PerfTier) : Bool :=
  decide (tier.range_start ≤ d) &&
    (match tier.range_end with
     | none => true
     | some e => decide (d < e))

/-- The perf.ts calculatePrice: sort a copy of the tiers by
range_start, return the rounded prices of the first closed-open match,
and null (None) when no tier matches. -/
def perfCalculatePrice (distanceKm : ℚ) (tiers : List PerfTier) : Option PerfPrice :=
  match perfFindTier distanceKm (sortPerfTiers tiers) with
  | none => none
  | some tier =>
      let ht := tier.price
      let tva := ht * tier.tva_rate / 100
      let ttc := ht + tva
      some { ht := perfRound2 ht, ttc := perfRound2 ttc, tva := perfRound2 tva }

/-- Selection rule written from the words of the spec: iterate sorted
tiers and select the first tier where start ≤ d and (end is null or
d < end), closed-open intervals. -/
def specSelectTierClosedOpen (d : ℚ) (tiers : List PerfTier) : Option PerfTier :=
  tiers.find? (perfMatches d)

theorem perfFindTier_eq_find? (d : ℚ) (l : List PerfTier) :
    perfFindTier d l = l.find? (perfMatches d) := by
  induction l with
  | nil => rfl
  | cons t rest ih =>
    unfold perfFindTier
    rw [List.find?]
    by_cases h : perfMatches d t = true
    · have hcond : d ≥ t.range_start ∧
          (t.range_end = none ∨ ∃ e, t.range_end = some e ∧ d < e) := by
        unfold perfMatches at h
        cases he : t.range_end with
        | none =>
          rw [he] at h
          simp only [Bool.and_true, decide_eq_true_eq] at h
          exact ⟨h, Or.inl rfl⟩
        | some e =>
          rw [he] at h
          simp only [Bool.and_eq_true, decide_eq_true_eq] at h
          exact ⟨h.1, Or.inr ⟨e, rfl, h.2⟩⟩
      rw [if_pos hcond, h]
    · have hcond : ¬(d ≥ t.range_start ∧
          (t.range_end = none ∨ ∃ e, t.range_end = some e ∧ d < e)) := by
        intro ⟨h1, h2⟩
        apply h
        unfold perfMatches
        cases he : t.range_end with
        | none =>
          simp only [Bool.and_true, decide_eq_true_eq]
          exact h1
        | some e =>
          rcases h2 with h2 | ⟨e', he', hlt⟩
          · rw [he] at h2; cases h2
          · rw [he] at he'
            cases he'
            simp only [Bool.and_eq_true, decide_eq_true_eq]
            exact ⟨h1, hlt⟩
      rw [if_neg hcond]
      cases h' : perfMatches d t with
      | true => exact absurd h' h
      | false => exact ih

theorem svcFindTier_eq_find? (d : ℚ) (l : List NTier) :
    svcFindTier d l = l.find? (svcMatches d) := by
  induction l with
  | nil => rfl
  | cons t rest ih =>
    rw [List.find?]
    cases he : t.range_end with
    | none =>
      by_cases h : t.start ≤ d
      · simp [svcFindTier, svcMatches, he, h]
      · simp [svcFindTier, svcMatches, he, h, ih]
    | some e =>
      by_cases h : t.start ≤ d ∧ d ≤ e
      · have hb : svcMatches d t = true := by
          simp [svcMatches, he, h.1, h.2]
        simp [svcFindTier, he, h, hb]
      · have hb : svcMatches d t = false := by
          simp only [svcMatches, he, Bool.and_eq_false_iff, decide_eq_false_iff_not]
          by_cases h1 : t.start ≤ d
          · exact Or.inr (fun h2 => h ⟨h1, h2⟩)
          · exact Or.inl h1
        simp [svcFindTier, he, h, hb, ih]

theorem mem_insertByStart {a t : NTier} {l : List NTier} :
    a ∈ insertByStart t l ↔ a = t ∨ a ∈ l := by
  induction l with
  | nil => simp [insertByStart]
  | cons u us ih =>
    by_cases h : u.start ≤ t.start
    · simp only [insertByStart, if_pos h, List.mem_cons, ih]
      tauto
    · simp only [insertByStart, if_neg h, List.mem_cons]

theorem pairwise_insertByStart {t : NTier} {l : List NTier}
    (h : l.Pairwise (fun a b => a.start ≤ b.start)) :
    (insertByStart t l).Pairwise (fun a b => a.start ≤ b.start) := by
  induction l with
  | nil => simp [insertByStart]
  | cons u us ih =>
    obtain ⟨hu, hus⟩ := List.pairwise_cons.mp h
    by_cases hle : u.start ≤ t.start
    · rw [insertByStart, if_pos hle]
      refine List.Pairwise.cons ?_ (ih hus)
      intro b hb
      rcases mem_insertByStart.mp hb with rfl | hbus
      · exact hle
      · exact hu b hbus
    · rw [insertByStart, if_neg hle]
      have hts : t.start ≤ u.start := le_of_lt (lt_of_not_le hle)
      refine List.Pairwise.cons ?_ (List.Pairwise.cons hu hus)
      intro b hb
      rcases List.mem_cons.mp hb with rfl | hbus
      · exact hts
      · exact le_trans hts (hu b hbus)

theorem sortTiers_pairwise (l : List NTier) :
    (sortTiers l).Pairwise (fun a b => a.start ≤ b.start) := by
  suffices h : ∀ (l : List NTier) (acc : List NTier),
      acc.Pairwise (fun a b => a.start ≤ b.start) →
      (l.foldl (fun acc t => insertByStart t acc) acc).Pairwise
        (fun a b => a.start ≤ b.start) by
    exact h l [] List.Pairwise.nil
  intro l
  induction l with
  | nil => intro acc hacc; exact hacc
  | cons t rest ih =>
    intro acc hacc
    exact ih (insertByStart t acc) (pairwise_insertByStart hacc)

/-- Head of the sorted tier list has the lowest range start. -/
theorem sortTiers_head_min {l : List NTier} {t0 : NTier} {rest : List NTier}
    (h : sortTiers l = t0 :: rest) :
    ∀ t ∈ t0 :: rest, t0.start ≤ t.start := by
  intro t ht
  rcases List.mem_cons.mp ht with rfl | htr
  · exact le_refl _
  · have := sortTiers_pairwise l
    rw [h] at this
    rcases this with _ | ⟨h0, _⟩
    exact h0 t htr

/-- The two-tier grid of the boundary scenario: one tier from 0 to 5
and one tier from 5 upward, as pricing_config rows. -/
def c1DemoCfg : List TierRow :=
  [ { range_start := some 0, range_end := some 5, price := some 8, tva_rate := some 20 },
    { range_start := some 5, range_end := none, price := some 10, tva_rate := some 20 } ]

/-- Claim C1, counterexample.  On the grid with tiers 0 to 5 and 5
upward, the PricingService engine assigns the boundary distance 5 to
the tier ENDING at 5 (applied range (0, some 5), unit price 8), not to
the tier starting at 5, because its matching loop treats the range end
as inclusive; the closed-open selection rule would pick the tier
starting at 5. -/
theorem svc_boundary_assigned_to_ending_tier :
    svcCalculatePrice 5 c1DemoCfg
        = .ok { price_ht := 8, price_ttc := 48/5, tva_amount := 8/5,
                tva_rate := 20, applied_range := ((0 : ℚ), some (5 : ℚ)) } ∧
      ((0 : ℚ), some (5 : ℚ)) ≠ ((5 : ℚ), (none : Option ℚ)) := by
  constructor
  · have hstep : svcCalculatePrice 5 c1DemoCfg
        = .ok { price_ht := round2 8, price_ttc := round2 (8 + 8 * 20 / 100),
                tva_amount := round2 (8 * 20 / 100), tva_rate := round2 20,
                applied_range := ((0 : ℚ), some (5 : ℚ)) } := rfl
    rw [hstep]
    have h1 : round2 8 = 8 := by
      rw [round2, jsRound_eq (z := 800) (by norm_num [jsEpsilon]) (by norm_num [jsEpsilon])]
      norm_num
    have h2 : round2 (8 + 8 * 20 / 100) = 48/5 := by
      rw [round2, jsRound_eq (z := 960) (by norm_num [jsEpsilon]) (by norm_num [jsEpsilon])]
      norm_num
    have h3 : round2 (8 * 20 / 100) = 8/5 := by
      rw [round2, jsRound_eq (z := 160) (by norm_num [jsEpsilon]) (by norm_num [jsEpsilon])]
      norm_num
    have h4 : round2 20 = 20 := by
      rw [round2, jsRound_eq (z := 2000) (by norm_num [jsEpsilon]) (by norm_num [jsEpsilon])]
      norm_num
    rw [h1, h2, h3, h4]
  · decide

/-- The rounded price record the PricingService builds from an applied
tier: ht and tva each rounded once from the exact values, ttc rounded
once from the UNROUNDED sum. -/
def svcPriceOf (applied : NTier) : PriceCalculation :=
  { price_ht := round2 applied.price
    price_ttc := round2 (applied.price + applied.price * applied.tva / 100)
    tva_amount := round2 (applied.price * applied.tva / 100)
    tva_rate := round2 applied.tva
    applied_range := (applied.start, applied.range_end) }

/-- The rounded price record the perf.ts engine builds from an applied
tier. -/
def perfPriceOf (tier : PerfTier) : PerfPrice :=
  { ht := perfRound2 tier.price
    ttc := perfRound2 (tier.price + tier.price * tier.tva_rate / 100)
    tva := perfRound2 (tier.price * tier.tva_rate / 100) }

/-- Claim C1, amended.  The perf.ts engine selects tiers by the
closed-open rule of the spec (first sorted tier with start ≤ d and, for
a non-null end, d strictly below the end), while the PricingService
engine selects the first sorted tier with start ≤ d and, for a non-null
end, d ≤ end -- the end INCLUSIVE -- and falls back to the first sorted
tier; a distance equal to a boundary shared by adjacent tiers is
therefore assigned by the PricingService to the tier ending there. -/
theorem tier_matching_end_semantics :
    (∀ (d : ℚ) (tiers : List PerfTier),
        perfCalculatePrice d tiers
          = (specSelectTierClosedOpen d (sortPerfTiers tiers)).map perfPriceOf) ∧
    (∀ (d : ℚ) (cfg : List TierRow) (t0 : NTier) (rest : List NTier),
        0 ≤ d → sortTiers (normalizeConfig cfg) = t0 :: rest →
        svcCalculatePrice d cfg
          = .ok (svcPriceOf ((List.find? (svcMatches d) (t0 :: rest)).getD t0))) := by
  constructor
  · intro d tiers
    rw [perfCalculatePrice, perfFindTier_eq_find?]
    rw [specSelectTierClosedOpen]
    cases List.find? (perfMatches d) (sortPerfTiers tiers) with
    | none => rfl
    | some tier => rfl
  · intro d cfg t0 rest hd hsort
    have hneg : ¬ d < 0 := not_lt.mpr hd
    simp only [svcCalculatePrice, hsort, if_neg hneg, svcFindTier_eq_find?]
    rfl

/-- Witness for the amended claim C1 at the boundary grid: the
PricingService assigns distance 5 to the tier from 0 to 5, and the
perf.ts engine assigns it to the tier from 5 upward. -/
theorem tier_matching_end_semantics_witness :
    (0 : ℚ) ≤ 5 ∧
      svcCalculatePrice 5 c1DemoCfg
        = .ok (svcPriceOf { start := 0, range_end := some 5, price := 8, tva := 20 }) ∧
      perfCalculatePrice 5
          [ { range_start := 0, range_end := some 5, price := 8, tva_rate := 20 },
            { range_start := 5, range_end := none, price := 10, tva_rate := 20 } ]
        = some (perfPriceOf { range_start := 5, range_end := none, price := 10, tva_rate := 20 }) := by
  refine ⟨by norm_num, ?_, ?_⟩
  · have h := tier_matching_end_semantics.2 5 c1DemoCfg
      { start := 0, range_end := some 5, price := 8, tva := 20 }
      [{ start := 5, range_end := none, price := 10, tva := 20 }]
      (by norm_num) (by decide)
    rw [h]
    have hfind : (List.find? (svcMatches 5)
        [ { start := 0, range_end := some 5, price := 8, tva := 20 },
          { start := 5, range_end := none, price := 10, tva := 20 } ]).getD
          { start := 0, range_end := some 5, price := 8, tva := 20 }
        = ({ start := 0, range_end := some 5, price := 8, tva := 20 } : NTier) := by decide
    rw [hfind]
  · have h := tier_matching_end_semantics.1 5
      [ { range_start := 0, range_end := some 5, price := 8, tva_rate := 20 },
        { range_start := 5, range_end := none, price := 10, tva_rate := 20 } ]
    rw [h]
    have hsel : specSelectTierClosedOpen 5 (sortPerfTiers
        [ { range_start := 0, range_end := some 5, price := 8, tva_rate := 20 },
          { range_start := 5, range_end := none, price := 10, tva_rate := 20 } ])
        = some { range_start := 5, range_end := none, price := 10, tva_rate := 20 } := by decide
    rw [hsel]
    rfl

/-- The per-leg update step of the perf.ts applyPricing loop: a leg
with null (or zero, falsy) distance is skipped, and when calculatePrice
returns null the update is also skipped -- None means no price update
is written for the leg. -/
def perfApplyLegUpdate (distance_km : Option ℚ) (tiers : List PerfTier) : Option PerfPrice :=
  match distance_km with
  | none => none
  | some d => if d = 0 then none else perfCalculatePrice d tiers

/-- The one-tier grid starting at 5 km, used to exhibit a distance no
tier contains. -/
def c8DemoTiers : List PerfTier :=
  [ { range_start := 5, range_end := none, price := 10, tva_rate := 20 } ]

/-- Claim C8, counterexample.  On the valid one-tier grid starting at
5 km, the distance 2 is contained in no tier, and the perf.ts pricing
engine leaves the leg unpriced: calculatePrice returns null and the
applyPricing loop writes no price update, instead of applying the first
tier. -/
theorem perf_no_match_leaves_unpriced :
    specSelectTierClosedOpen 2 (sortPerfTiers c8DemoTiers) = none ∧
      perfCalculatePrice 2 c8DemoTiers = none ∧
      perfApplyLegUpdate (some 2) c8DemoTiers = none := by
  refine ⟨by decide, by decide, ?_⟩
  have h2 : ¬ (2 : ℚ) = 0 := by norm_num
  rw [perfApplyLegUpdate, if_neg h2]
  decide

/-- Claim C8, amended.  When no tier matches the resolved distance, the
PricingService engine falls back to the first sorted tier, which has
the lowest range start; the perf.ts engine instead returns null and its
applyPricing loop leaves the leg unpriced. -/
theorem no_match_fallback_semantics :
    (∀ (d : ℚ) (cfg : List TierRow) (t0 : NTier) (rest : List NTier),
        0 ≤ d → sortTiers (normalizeConfig cfg) = t0 :: rest →
        svcFindTier d (t0 :: rest) = none →
        svcCalculatePrice d cfg = .ok (svcPriceOf t0) ∧
          ∀ t ∈ t0 :: rest, t0.start ≤ t.start) ∧
    (∀ (d : ℚ) (tiers : List PerfTier),
        perfFindTier d (sortPerfTiers tiers) = none →
        perfCalculatePrice d tiers = none) := by
  constructor
  · intro d cfg t0 rest hd hsort hnone
    refine ⟨?_, sortTiers_head_min hsort⟩
    have hneg : ¬ d < 0 := not_lt.mpr hd
    simp only [svcCalculatePrice, hsort, if_neg hneg, hnone]
    rfl
  · intro d tiers hnone
    rw [perfCalculatePrice, hnone]

/-- Witness for the amended claim C8: with the one-tier grid starting
at 5 km and distance 2, the PricingService applies the 5-upward tier as
fallback while the perf.ts engine returns null. -/
theorem no_match_fallback_semantics_witness :
    (0 : ℚ) ≤ 2 ∧
      svcCalculatePrice 2
          [ { range_start := some 5, range_end := none, price := some 10, tva_rate := some 20 } ]
        = .ok (svcPriceOf { start := 5, range_end := none, price := 10, tva := 20 }) ∧
      perfCalculatePrice 2 c8DemoTiers = none := by
  refine ⟨by norm_num, ?_, ?_⟩
  · exact (no_match_fallback_semantics.1 2
      [ { range_start := some 5, range_end := none, price := some 10, tva_rate := some 20 } ]
      { start := 5, range_end := none, price := 10, tva := 20 } []
      (by norm_num) (by decide) (by decide)).1
  · exact no_match_fallback_semantics.2 2 c8DemoTiers (by decide)

/-- The one-tier grid with unit price 1.004 and tax rate 25 percent,
on which rounding once at the end differs from summing the rounded
parts. -/
def c9DemoCfg : List TierRow :=
  [ { range_start := some 0, range_end := none, price := some (1004/1000),
      tva_rate := some 25 } ]

/-- Claim C9, counterexample.  With unit price 1.004 and tax rate 25,
the stored tax-inclusive price is round2 of the unrounded sum,
round2 (1.004 + 0.251) = 1.26, while the claimed formula
round2 (1.004) + round2 (0.251) gives 1.00 + 0.25 = 1.25. -/
theorem ttc_not_sum_of_rounded_parts :
    svcCalculatePrice 1 c9DemoCfg
        = .ok { price_ht := 1, price_ttc := 63/50, tva_amount := 1/4,
                tva_rate := 25, applied_range := ((0 : ℚ), (none : Option ℚ)) } ∧
      round2 (1004/1000) + round2 (1004/1000 * 25 / 100) = 5/4 ∧
      (63/50 : ℚ) ≠ 5/4 := by
  have h1 : round2 (1004/1000) = 1 := by
    rw [round2, jsRound_eq (z := 100) (by norm_num [jsEpsilon]) (by norm_num [jsEpsilon])]
    norm_num
  have h2 : round2 (1004/1000 * 25 / 100) = 1/4 := by
    rw [round2, jsRound_eq (z := 25) (by norm_num [jsEpsilon]) (by norm_num [jsEpsilon])]
    norm_num
  refine ⟨?_, by rw [h1, h2]; norm_num, by norm_num⟩
  have hstep : svcCalculatePrice 1 c9DemoCfg
      = .ok { price_ht := round2 (1004/1000),
              price_ttc := round2 (1004/1000 + 1004/1000 * 25 / 100),
              tva_amount := round2 (1004/1000 * 25 / 100),
              tva_rate := round2 25,
              applied_range := ((0 : ℚ), (none : Option ℚ)) } := rfl
  rw [hstep, h1, h2]
  have h3 : round2 (1004/1000 + 1004/1000 * 25 / 100) = 63/50 := by
    rw [round2, jsRound_eq (z := 126) (by norm_num [jsEpsilon]) (by norm_num [jsEpsilon])]
    norm_num
  have h4 : round2 25 = 25 := by
    rw [round2, jsRound_eq (z := 2500) (by norm_num [jsEpsilon]) (by norm_num [jsEpsilon])]
    norm_num
  rw [h3, h4]

/-- Claim C9, amended.  For the applied tier with unit price p and tax
rate r, the PricingService stores price_ht = round2 p, tva_amount =
round2 (p * r / 100), and a tax-inclusive price rounded once from the
UNROUNDED sum: price_ttc = round2 (p + p * r / 100), which may differ
from round2 p + round2 (p * r / 100). -/
theorem monetary_rounding_formulas :
    ∀ (d : ℚ) (cfg : List TierRow) (t0 : NTier) (rest : List NTier),
      0 ≤ d → sortTiers (normalizeConfig cfg) = t0 :: rest →
      svcCalculatePrice d cfg
        = .ok { price_ht := round2 (((svcFindTier d (t0 :: rest)).getD t0).price)
                price_ttc := round2 (((svcFindTier d (t0 :: rest)).getD t0).price
                  + ((svcFindTier d (t0 :: rest)).getD t0).price
                    * ((svcFindTier d (t0 :: rest)).getD t0).tva / 100)
                tva_amount := round2 (((svcFindTier d (t0 :: rest)).getD t0).price
                  * ((svcFindTier d (t0 :: rest)).getD t0).tva / 100)
                tva_rate := round2 (((svcFindTier d (t0 :: rest)).getD t0).tva)
                applied_range := (((svcFindTier d (t0 :: rest)).getD t0).start,
                  ((svcFindTier d (t0 :: rest)).getD t0).range_end) } := by
  intro d cfg t0 rest hd hsort
  have hneg : ¬ d < 0 := not_lt.mpr hd
  simp only [svcCalculatePrice, hsort, if_neg hneg]

/-- Witness for the amended claim C9 on the 1.004 price, 25 percent
grid at distance 1. -/
theorem monetary_rounding_formulas_witness :
    (0 : ℚ) ≤ 1 ∧
      svcCalculatePrice 1 c9DemoCfg
        = .ok { price_ht := round2 (1004/1000),
                price_ttc := round2 (1004/1000 + 1004/1000 * 25 / 100),
                tva_amount := round2 (1004/1000 * 25 / 100),
                tva_rate := round2 25,
                applied_range := ((0 : ℚ), (none : Option ℚ)) } := by
  refine ⟨by norm_num, ?_⟩
  have h := monetary_rounding_formulas 1 c9DemoCfg
    { start := 0, range_end := none, price := 1004/1000, tva := 25 } []
    (by norm_num) (by rfl)
  rw [h]
  rfl

/-- Split a character list at whitespace, accumulating the current
token. -/
def splitWsAux : List Char → List Char → List (List Char)
  | [], cur => [cur.reverse]
  | c :: cs, cur =>
      if c.isWhitespace then cur.reverse :: splitWsAux cs []
      else splitWsAux cs (c :: cur)

/-- The non-empty whitespace-separated tokens of a character list. -/
def wsTokens (l : List Char) : List (List Char) :=
  (splitWsAux l []).filter (fun t => t ≠ [])

/-- normalizeAddress of DistanceService: trim, collapse every
whitespace run to one space, lowercase.  Joining the non-empty
whitespace-separated tokens with single spaces is exactly
trim-then-collapse. -/
def normalizeAddress (s : String) : String :=
  String.mk (List.intercalate [' '] ((wsTokens s.data).map (fun t => t.map Char.toLower)))

/-- A route_cache row as selected by the resolver. -/
structure RouteCacheRow where
  distance_meters : Option ℚ
  duration_seconds : Option ℚ
  status : String
  error_message : Option String
deriving DecidableEq, Repr

/-- The reply of the external routing provider: an HTTP success whose
element is OK (meters None models a missing or NaN distance value), a
non-OK status, or a thrown network error. -/
inductive ProviderReply
  | ok (meters : Option ℚ) (seconds : Option ℚ)
  | badStatus (msg : String)
  | netError (msg : String)
deriving DecidableEq, Repr

/-- The environment one resolver call runs against: the cache lookup
reply (None models a lookup error or timeout, some None a missing row),
presence of the provider credential, and the provider reply. -/
structure RouteEnv where
  cacheLookup : Option (Option RouteCacheRow)
  hasApiKey : Bool
  provider : ProviderReply
deriving DecidableEq, Repr

/-- A cache upsert performed by the resolver. -/
inductive CacheWrite
  | okWrite (meters : ℚ) (seconds : Option ℚ)
  | errWrite (msg : String)
deriving DecidableEq, Repr

/-- The observable outcome of one resolver call: the returned value or
thrown message, whether the external provider was queried, and the
cache upserts issued. -/
structure RouteOutcome where
  result : Except String (ℚ × Bool)
  providerCalled : Bool
  cacheWrites : List CacheWrite

/-- getRouteDistanceKm of DistanceService (distance.module.ts lines 50
to 205).  The whole cache-lookup block, including the throw performed
on a cached error row, sits inside a try whose catch only logs and
falls through; therefore every cache branch other than a usable ok row
behaves as a miss and proceeds to the provider call -- the negative
cache never short-circuits the provider. -/
def getRouteDistanceKm (originAddress destinationAddress : String) (env : RouteEnv) :
    RouteOutcome :=
  let origin_norm := normalizeAddress originAddress
  let destination_norm := normalizeAddress destinationAddress
  if origin_norm = "" ∨ destination_norm = "" then
    { result := .error "Origin ou destination vide", providerCalled := false, cacheWrites := [] }
  else
    let cacheHit : Option ℚ :=
      match env.cacheLookup with
      | some (some row) =>
          if row.status = "ok" then
            match row.distance_meters with
            | some m => if 0 < m then some (m / 1000) else none
            | none => none
          else none
      | _ => none
    match cacheHit with
    | some km => { result := .ok (km, true), providerCalled := false, cacheWrites := [] }
    | none =>
      if env.hasApiKey = false then
        { result := .error "GOOGLE_MAPS_API_KEY manquante", providerCalled := false,
          cacheWrites := [] }
      else
        match env.provider with
        | .netError msg =>
            { result := .error msg, providerCalled := true, cacheWrites := [.errWrite msg] }
        | .badStatus s =>
            let msg := "Google Distance Matrix: " ++ s
            { result := .error msg, providerCalled := true,
              cacheWrites := [.errWrite msg, .errWrite msg] }
        | .ok meters seconds =>
            match meters with
            | some m =>
                if 0 < m then
                  { result := .ok (m / 1000, false), providerCalled := true,
                    cacheWrites := [.okWrite m seconds] }
                else
                  { result := .error "Google Distance Matrix: DISTANCE_INVALID",
                    providerCalled := true,
                    cacheWrites := [.errWrite "Google Distance Matrix: DISTANCE_INVALID"] }
            | none =>
                { result := .error "Google Distance Matrix: DISTANCE_INVALID",
                  providerCalled := true,
                  cacheWrites := [.errWrite "Google Distance Matrix: DISTANCE_INVALID"] }

/-- A stored negative-cache row: status error with a saved message. -/
def c2ErrorRow : RouteCacheRow :=
  { distance_meters := none
    duration_seconds := none
    status := "error"
    error_message := some "ROUTE_FAIL" }

/-- An environment whose cache holds an error row for the key, with a
reachable provider. -/
def c2DemoEnv : RouteEnv :=
  { cacheLookup := some (some c2ErrorRow)
    hasApiKey := true
    provider := .ok (some 5000) (some 300) }

/-- Claim C2, violated by the code.  With a stored route-cache row of
status error for the pair, the resolver does not fail with the stored
message: the negative-cache throw is swallowed by the cache-lookup
catch, the external provider IS called, and its fresh result is
returned (and re-cached). -/
theorem cached_error_row_still_queries_provider :
    c2DemoEnv.cacheLookup = some (some c2ErrorRow) ∧
      c2ErrorRow.status = "error" ∧
      c2ErrorRow.error_message = some "ROUTE_FAIL" ∧
      (getRouteDistanceKm "A" "B" c2DemoEnv).providerCalled = true ∧
      (getRouteDistanceKm "A" "B" c2DemoEnv).result = .ok (5000/1000, false) ∧
      (getRouteDistanceKm "A" "B" c2DemoEnv).cacheWrites
        = [.okWrite 5000 (some 300)] := by
  exact ⟨rfl, rfl, rfl, rfl, rfl, rfl⟩

/-- A JavaScript number as it can reach consumeCreditsOrFail: NaN, an
infinity, or a finite value. -/
inductive JsNum
  | nan
  | posInf
  | negInf
  | num (q : ℚ)
deriving DecidableEq, Repr

/-- Number.isFinite. -/
def JsNum.isFinite : JsNum → Bool
  | .num _ => true
  | _ => false

/-- The comparison amount <= 0 under IEEE semantics: false on NaN. -/
def JsNum.nonPositive : JsNum → Bool
  | .nan => false
  | .posInf => false
  | .negInf => true
  | .num q => decide (q ≤ 0)

/-- The finite value of a JsNum (0 on the non-finite shapes, which the
guard filters out before the value is used). -/
def JsNum.toQ : JsNum → ℚ
  | .num q => q
  | _ => 0

/-- One database event issued by consumeCreditsOrFail: a read of the
profile row, or a conditional update of credits_remaining filtered on
the expected current value. -/
inductive DbEvent
  | readProfile
  | casAttempt (expected amount : ℚ)
deriving DecidableEq, Repr

/-- Event classifiers for counting reads and conditional updates. -/
def DbEvent.isRead : DbEvent → Bool
  | .readProfile => true
  | _ => false

def DbEvent.isCas : DbEvent → Bool
  | .casAttempt _ _ => true
  | _ => false

/-- The outcome of one consumeCreditsOrFail call: a plain return, the
profile-not-found error, the insufficient-credits error with required
and available amounts, or the concurrency error. -/
inductive ConsumeResult
  | returned
  | profileNotFound
  | insufficient (required available : ℚ)
  | concurrencyExhausted
deriving DecidableEq, Repr

/-- The database replies one consumeCreditsOrFail call observes: the
two profile reads (outer None models a missing row, inner None a null
credits_remaining read as 0) and the row counts of the two conditional
updates (true when a row was affected). -/
structure LedgerOracle where
  profile1 : Option (Option ℚ)
  cas1 : Bool
  profile2 : Option (Option ℚ)
  cas2 : Bool
deriving DecidableEq, Repr

/-- consumeCreditsOrFail of the upload controller (perf.ts lines 85 to
149): return at once on a non-finite or non-positive amount; read the
profile (missing row is the profile-not-found error, null credits read
as 0); fail if the balance is below the amount; attempt a conditional
update expecting the read balance; on zero affected rows re-read once,
re-check sufficiency, attempt the conditional update once more, and
report the concurrency error if it also affects zero rows. -/
def consumeCreditsOrFail (amount : JsNum) (o : LedgerOracle) :
    ConsumeResult × List DbEvent :=
  if amount.isFinite = false ∨ amount.nonPositive = true then (.returned, [])
  else
    let a := amount.toQ
    match o.profile1 with
    | none => (.profileNotFound, [.readProfile])
    | some credits =>
      let current := credits.getD 0
      if current < a then (.insufficient a current, [.readProfile])
      else if o.cas1 then (.returned, [.readProfile, .casAttempt current a])
      else
        let current2 := (o.profile2.getD none).getD 0
        if current2 < a then
          (.insufficient a current2, [.readProfile, .casAttempt current a, .readProfile])
        else if o.cas2 then
          (.returned,
            [.readProfile, .casAttempt current a, .readProfile, .casAttempt current2 a])
        else
          (.concurrencyExhausted,
            [.readProfile, .casAttempt current a, .readProfile, .casAttempt current2 a])

/-- Claim C10.  A non-finite or non-positive amount makes the call
return at once: no profile read (so no profile-not-found error even
without a ledger row) and no conditional update (so the stored balance
is untouched). -/
theorem nonfinite_or_nonpositive_amount_skips_ledger :
    ∀ (amount : JsNum) (o : LedgerOracle),
      (amount.isFinite = false ∨ amount.nonPositive = true) →
      consumeCreditsOrFail amount o = (.returned, []) := by
  intro amount o h
  rw [consumeCreditsOrFail, if_pos h]

/-- Witness for claim C10: NaN against a missing ledger row, and the
amount -1 and the amount 0 against a funded row, each return with an
empty event trace. -/
theorem nonfinite_or_nonpositive_amount_skips_ledger_witness :
    ((JsNum.nan.isFinite = false ∨ JsNum.nan.nonPositive = true) ∧
      consumeCreditsOrFail .nan
        { profile1 := none, cas1 := false, profile2 := none, cas2 := false }
        = (.returned, [])) ∧
    (((JsNum.num (-1)).isFinite = false ∨ (JsNum.num (-1)).nonPositive = true) ∧
      consumeCreditsOrFail (.num (-1))
        { profile1 := some (some 100), cas1 := true, profile2 := none, cas2 := false }
        = (.returned, [])) ∧
    (((JsNum.num 0).isFinite = false ∨ (JsNum.num 0).nonPositive = true) ∧
      consumeCreditsOrFail (.num 0)
        { profile1 := some (some 100), cas1 := true, profile2 := none, cas2 := false }
        = (.returned, [])) := by
  refine ⟨⟨Or.inl rfl, ?_⟩, ⟨Or.inr (by decide), ?_⟩, ⟨Or.inr (by decide), ?_⟩⟩
  · exact nonfinite_or_nonpositive_amount_skips_ledger .nan _ (Or.inl rfl)
  · exact nonfinite_or_nonpositive_amount_skips_ledger (.num (-1)) _ (Or.inr (by decide))
  · exact nonfinite_or_nonpositive_amount_skips_ledger (.num 0) _ (Or.inr (by decide))

/-- Claim C4.  When the first conditional update affects zero rows the
profile is re-read exactly once (two reads in total); if the re-read
balance is below the amount the call fails with the
insufficient-credits error after a single conditional update, and
otherwise exactly one more conditional update is attempted, whose zero-
row failure is reported as the concurrency error instead of a further
retry. -/
theorem cas_retry_bounded :
    ∀ (a : ℚ) (o : LedgerOracle) (c : Option ℚ),
      0 < a → o.profile1 = some c → a ≤ c.getD 0 → o.cas1 = false →
      ((consumeCreditsOrFail (.num a) o).2.countP DbEvent.isRead = 2) ∧
      (((o.profile2.getD none).getD 0 < a →
          (consumeCreditsOrFail (.num a) o).1
              = .insufficient a ((o.profile2.getD none).getD 0) ∧
            (consumeCreditsOrFail (.num a) o).2.countP DbEvent.isCas = 1)) ∧
      ((a ≤ (o.profile2.getD none).getD 0 →
          (consumeCreditsOrFail (.num a) o).2.countP DbEvent.isCas = 2 ∧
            (o.cas2 = true → (consumeCreditsOrFail (.num a) o).1 = .returned) ∧
            (o.cas2 = false →
              (consumeCreditsOrFail (.num a) o).1 = .concurrencyExhausted))) := by
  intro a o c hpos hread hsuff hcas1
  have hguard : ¬ ((JsNum.num a).isFinite = false ∨ (JsNum.num a).nonPositive = true) := by
    simp [JsNum.isFinite, JsNum.nonPositive, not_le.mpr hpos]
  have hnotlt : ¬ c.getD 0 < JsNum.toQ (.num a) := not_lt.mpr hsuff
  rw [consumeCreditsOrFail, if_neg hguard] at *
  simp only [hread, JsNum.toQ] at *
  rw [if_neg hnotlt, if_neg (by rw [hcas1]; exact Bool.false_ne_true)]
  by_cases h2 : (o.profile2.getD none).getD 0 < a
  · rw [if_pos h2]
    refine ⟨by simp [List.countP, List.countP.go, DbEvent.isRead], ?_, ?_⟩
    · intro _
      exact ⟨rfl, by simp [List.countP, List.countP.go, DbEvent.isCas]⟩
    · intro hge
      exact absurd h2 (not_lt.mpr hge)
  · rw [if_neg h2]
    refine ⟨?_, ?_, ?_⟩
    · cases hc2 : o.cas2 <;>
        simp [hc2, List.countP, List.countP.go, DbEvent.isRead]
    · intro hlt
      exact absurd hlt h2
    · intro _
      cases hc2 : o.cas2 <;>
        simp [hc2, List.countP, List.countP.go, DbEvent.isCas]

/-- The oracle of a call that loses the first race and finds the
re-read balance too small. -/
def c4LoseThenShort : LedgerOracle :=
  { profile1 := some (some 100), cas1 := false, profile2 := some (some 40), cas2 := false }

/-- The oracle of a call that loses both races on a still-sufficient
balance. -/
def c4LoseTwice : LedgerOracle :=
  { profile1 := some (some 100), cas1 := false, profile2 := some (some 90), cas2 := false }

/-- Witness for claim C4 at amount 50: after the first conditional
update fails, the 40-credit re-read yields the insufficient error with
one conditional update, and the 90-credit re-read yields the
concurrency error after exactly two reads and two conditional
updates. -/
theorem cas_retry_bounded_witness :
    ((0 : ℚ) < 50 ∧ c4LoseThenShort.cas1 = false ∧
      (consumeCreditsOrFail (.num 50) c4LoseThenShort).2.countP DbEvent.isRead = 2 ∧
      (consumeCreditsOrFail (.num 50) c4LoseThenShort).1 = .insufficient 50 40 ∧
      (consumeCreditsOrFail (.num 50) c4LoseThenShort).2.countP DbEvent.isCas = 1) ∧
    ((consumeCreditsOrFail (.num 50) c4LoseTwice).2.countP DbEvent.isRead = 2 ∧
      (consumeCreditsOrFail (.num 50) c4LoseTwice).2.countP DbEvent.isCas = 2 ∧
      (consumeCreditsOrFail (.num 50) c4LoseTwice).1 = .concurrencyExhausted) := by
  have h1 := cas_retry_bounded 50 c4LoseThenShort (some 100)
    (by norm_num) rfl (by norm_num) rfl
  have h2 := cas_retry_bounded 50 c4LoseTwice (some 100)
    (by norm_num) rfl (by norm_num) rfl
  have h1b := h1.2.1 (by decide)
  have h2b := h2.2.2 (by decide)
  exact ⟨⟨by norm_num, rfl, h1.1, h1b.1, h1b.2⟩,
    h2.1, h2b.1, h2b.2.2 rfl⟩

/-- Program counter of one in-flight consumeCreditsOrFail call, in the
interleaved model: idle (before the first read), ready to attempt the
first conditional update (after a sufficiency check), about to re-read,
ready to attempt the second conditional update (after the re-check),
and the terminal outcomes. -/
inductive CreditPC
  | idle
  | readyCas1
  | needReread
  | readyCas2
  | done
  | insufficientStop
  | concurrencyStop
deriving DecidableEq, Repr

/-- One in-flight consumeCreditsOrFail call: its requested amount, the
balance value it last read, and its program counter. -/
structure CreditProc where
  amount : ℚ
  cur : ℚ
  pc : CreditPC
deriving DecidableEq, Repr

/-- The atomic steps of one consumeCreditsOrFail call against the
shared stored balance, following perf.ts lines 85 to 149.  Reads and
conditional updates are atomic; the sufficiency check is local and
bundled with the read that feeds it.  A conditional update succeeds
exactly when the stored balance still equals the value read (the
compare-and-swap filter .eq credits_remaining expectedCurrent), and
every attempted update was preceded by a check that its expected value
covers the amount. -/
inductive CreditStep : ℚ → CreditProc → ℚ → CreditProc → Prop
  | skipGuard (bal a cur : ℚ) (h : a ≤ 0) :
      CreditStep bal ⟨a, cur, .idle⟩ bal ⟨a, cur, .done⟩
  | readInsufficient (bal a cur : ℚ) (hpos : 0 < a) (h : bal < a) :
      CreditStep bal ⟨a, cur, .idle⟩ bal ⟨a, bal, .insufficientStop⟩
  | readOk (bal a cur : ℚ) (hpos : 0 < a) (h : a ≤ bal) :
      CreditStep bal ⟨a, cur, .idle⟩ bal ⟨a, bal, .readyCas1⟩
  | cas1Success (bal a cur : ℚ) (h : bal = cur) :
      CreditStep bal ⟨a, cur, .readyCas1⟩ (cur - a) ⟨a, cur, .done⟩
  | cas1Fail (bal a cur : ℚ) (h : bal ≠ cur) :
      CreditStep bal ⟨a, cur, .readyCas1⟩ bal ⟨a, cur, .needReread⟩
  | rereadInsufficient (bal a cur : ℚ) (h : bal < a) :
      CreditStep bal ⟨a, cur, .needReread⟩ bal ⟨a, bal, .insufficientStop⟩
  | rereadOk (bal a cur : ℚ) (h : a ≤ bal) :
      CreditStep bal ⟨a, cur, .needReread⟩ bal ⟨a, bal, .readyCas2⟩
  | cas2Success (bal a cur : ℚ) (h : bal = cur) :
      CreditStep bal ⟨a, cur, .readyCas2⟩ (cur - a) ⟨a, cur, .done⟩
  | cas2Fail (bal a cur : ℚ) (h : bal ≠ cur) :
      CreditStep bal ⟨a, cur, .readyCas2⟩ bal ⟨a, cur, .concurrencyStop⟩

/-- The shared account state: the stored balance and the in-flight
calls. -/
structure LedgerState where
  bal : ℚ
  procs : List CreditProc
deriving DecidableEq, Repr

/-- Interleaving: any one in-flight call takes one atomic step. -/
inductive LedgerStep : LedgerState → LedgerState → Prop
  | step (bal bal' : ℚ) (l r : List CreditProc) (p p' : CreditProc)
      (h : CreditStep bal p bal' p') :
      LedgerStep ⟨bal, l ++ p :: r⟩ ⟨bal', l ++ p' :: r⟩

/-- Zero or more interleaved steps. -/
def LedgerReachable : LedgerState → LedgerState → Prop :=
  Relation.ReflTransGen LedgerStep

/-- The inductive invariant: the balance is non-negative, and every
call ready to attempt a conditional update has checked that its last
read value covers its amount. -/
def LedgerInv (s : LedgerState) : Prop :=
  0 ≤ s.bal ∧
    ∀ p ∈ s.procs, (p.pc = .readyCas1 ∨ p.pc = .readyCas2) → p.amount ≤ p.cur

theorem ledgerInv_preserved {s s' : LedgerState}
    (hstep : LedgerStep s s') (hinv : LedgerInv s) : LedgerInv s' := by
  obtain ⟨bal, bal', l, r, p, p', h⟩ := hstep
  obtain ⟨hbal, hproc⟩ := hinv
  have hpmem : p ∈ l ++ p :: r := List.mem_append_right l (List.mem_cons_self p r)
  have hothers : ∀ q ∈ l ++ p' :: r, q ∈ l ++ p :: r ∨ q = p' := by
    intro q hq
    rcases List.mem_append.mp hq with hql | hqc
    · exact Or.inl (List.mem_append_left _ hql)
    · rcases List.mem_cons.mp hqc with rfl | hqr
      · exact Or.inr rfl
      · exact Or.inl (List.mem_append_right _ (List.mem_cons_of_mem _ hqr))
  cases h with
  | skipGuard a cur hle =>
    refine ⟨hbal, ?_⟩
    intro q hq hqpc
    rcases hothers q hq with hqold | rfl
    · exact hproc q hqold hqpc
    · rcases hqpc with h | h <;> simp at h
  | readInsufficient a cur hpos hlt =>
    refine ⟨hbal, ?_⟩
    intro q hq hqpc
    rcases hothers q hq with hqold | rfl
    · exact hproc q hqold hqpc
    · rcases hqpc with h | h <;> simp at h
  | readOk a cur hpos hle =>
    refine ⟨hbal, ?_⟩
    intro q hq hqpc
    rcases hothers q hq with hqold | rfl
    · exact hproc q hqold hqpc
    · exact hle
  | cas1Success a cur heq =>
    have hcur : a ≤ cur :=
      hproc _ hpmem (Or.inl rfl)
    refine ⟨by simpa using sub_nonneg.mpr hcur, ?_⟩
    intro q hq hqpc
    rcases hothers q hq with hqold | rfl
    · exact hproc q hqold hqpc
    · rcases hqpc with h | h <;> simp at h
  | cas1Fail a cur hne =>
    refine ⟨hbal, ?_⟩
    intro q hq hqpc
    rcases hothers q hq with hqold | rfl
    · exact hproc q hqold hqpc
    · rcases hqpc with h | h <;> simp at h
  | rereadInsufficient a cur hlt =>
    refine ⟨hbal, ?_⟩
    intro q hq hqpc
    rcases hothers q hq with hqold | rfl
    · exact hproc q hqold hqpc
    · rcases hqpc with h | h <;> simp at h
  | rereadOk a cur hle =>
    refine ⟨hbal, ?_⟩
    intro q hq hqpc
    rcases hothers q hq with hqold | rfl
    · exact hproc q hqold hqpc
    · exact hle
  | cas2Success a cur heq =>
    have hcur : a ≤ cur :=
      hproc _ hpmem (Or.inr rfl)
    refine ⟨by simpa using sub_nonneg.mpr hcur, ?_⟩
    intro q hq hqpc
    rcases hothers q hq with hqold | rfl
    · exact hproc q hqold hqpc
    · rcases hqpc with h | h <;> simp at h
  | cas2Fail a cur hne =>
    refine ⟨hbal, ?_⟩
    intro q hq hqpc
    rcases hothers q hq with hqold | rfl
    · exact hproc q hqold hqpc
    · rcases hqpc with h | h <;> simp at h

/-- Claim C3.  From a non-negative stored balance with any number of
idle consumeCreditsOrFail callers, the balance stays non-negative in
every reachable interleaving: each conditional decrement only applies
when the balance still equals the value its caller read, and that value
was first checked to cover the amount. -/
theorem consumeCredits_balance_never_negative :
    ∀ (s₀ s : LedgerState), 0 ≤ s₀.bal →
      (∀ p ∈ s₀.procs, p.pc = CreditPC.idle) →
      LedgerReachable s₀ s → 0 ≤ s.bal := by
  intro s₀ s hbal hidle hreach
  have hinv₀ : LedgerInv s₀ := by
    refine ⟨hbal, ?_⟩
    intro p hp hpc
    have := hidle p hp
    rcases hpc with h | h <;> rw [this] at h <;> cases h
  have : LedgerInv s := by
    induction hreach with
    | refl => exact hinv₀
    | tail _ hstep ih => exact ledgerInv_preserved hstep ih
  exact this.1

/-- Two racing callers, amounts 60 and 70, each fitting the 100-credit
balance alone but not jointly. -/
def ledgerRaceStart : LedgerState :=
  { bal := 100
    procs := [ { amount := 60, cur := 0, pc := .idle },
               { amount := 70, cur := 0, pc := .idle } ] }

/-- The state after the 60 caller wins the race and the 70 caller
re-reads 40 and stops with the insufficient-credits error. -/
def ledgerRaceEnd : LedgerState :=
  { bal := 40
    procs := [ { amount := 60, cur := 100, pc := .done },
               { amount := 70, cur := 40, pc := .insufficientStop } ] }

/-- Witness for claim C3: a full interleaving of the two racing
callers is reachable, and the final balance 40 is non-negative by the
theorem. -/
theorem consumeCredits_balance_never_negative_witness :
    (0 : ℚ) ≤ ledgerRaceStart.bal ∧
      LedgerReachable ledgerRaceStart ledgerRaceEnd ∧
      0 ≤ ledgerRaceEnd.bal := by
  have e : (100 : ℚ) - 60 = 40 := by norm_num
  have t1 : LedgerStep ledgerRaceStart
      ⟨100, [⟨60, 100, .readyCas1⟩, ⟨70, 0, .idle⟩]⟩ :=
    LedgerStep.step 100 100 [] [⟨70, 0, .idle⟩] ⟨60, 0, .idle⟩ ⟨60, 100, .readyCas1⟩
      (CreditStep.readOk 100 60 0 (by norm_num) (by norm_num))
  have t2 : LedgerStep ⟨100, [⟨60, 100, .readyCas1⟩, ⟨70, 0, .idle⟩]⟩
      ⟨100, [⟨60, 100, .readyCas1⟩, ⟨70, 100, .readyCas1⟩]⟩ :=
    LedgerStep.step 100 100 [⟨60, 100, .readyCas1⟩] [] ⟨70, 0, .idle⟩ ⟨70, 100, .readyCas1⟩
      (CreditStep.readOk 100 70 0 (by norm_num) (by norm_num))
  have t3 : LedgerStep ⟨100, [⟨60, 100, .readyCas1⟩, ⟨70, 100, .readyCas1⟩]⟩
      ⟨100 - 60, [⟨60, 100, .done⟩, ⟨70, 100, .readyCas1⟩]⟩ :=
    LedgerStep.step 100 (100 - 60) [] [⟨70, 100, .readyCas1⟩]
      ⟨60, 100, .readyCas1⟩ ⟨60, 100, .done⟩
      (CreditStep.cas1Success 100 60 100 rfl)
  rw [e] at t3
  have t4 : LedgerStep ⟨40, [⟨60, 100, .done⟩, ⟨70, 100, .readyCas1⟩]⟩
      ⟨40, [⟨60, 100, .done⟩, ⟨70, 100, .needReread⟩]⟩ :=
    LedgerStep.step 40 40 [⟨60, 100, .done⟩] [] ⟨70, 100, .readyCas1⟩ ⟨70, 100, .needReread⟩
      (CreditStep.cas1Fail 40 70 100 (by norm_num))
  have t5 : LedgerStep ⟨40, [⟨60, 100, .done⟩, ⟨70, 100, .needReread⟩]⟩ ledgerRaceEnd :=
    LedgerStep.step 40 40 [⟨60, 100, .done⟩] [] ⟨70, 100, .needReread⟩
      ⟨70, 40, .insufficientStop⟩
      (CreditStep.rereadInsufficient 40 70 100 (by norm_num))
  have htrace : LedgerReachable ledgerRaceStart ledgerRaceEnd :=
    Relation.ReflTransGen.head t1 (Relation.ReflTransGen.head t2
      (Relation.ReflTransGen.head t3 (Relation.ReflTransGen.head t4
        (Relation.ReflTransGen.head t5 Relation.ReflTransGen.refl))))
  refine ⟨by norm_num [ledgerRaceStart], htrace, ?_⟩
  exact consumeCredits_balance_never_negative ledgerRaceStart ledgerRaceEnd
    (by norm_num [ledgerRaceStart]) (by decide) htrace

/-- The stored upload status values. -/
inductive UStatus
  | ready
  | pending_validation
  | processing
  | distances_done
  | failed
deriving DecidableEq, Repr

/-- The synchronous reply of the start-processing endpoint. -/
inductive StartResult
  | alreadyRunning
  | forbidden
  | alreadyProcessing
  | alreadyDone
  | rejectedInvalid (count : ℕ)
  | accepted (total : ℕ)
  | creditFailed
deriving DecidableEq, Repr

/-- The synchronous part of the POST process endpoint of the upload
controller (perf.ts lines 422 to 545), returning its reply together
with the ordered list of status values written to the upload before the
reply is sent.  The endpoint writes processing BEFORE checking for
remaining invalid rows, and on finding some writes pending_validation
and rejects with their count. -/
def startProcessing (locked owned : Bool) (current : UStatus)
    (invalidCount pendingCount : ℕ) (creditOk : Bool) : StartResult × List UStatus :=
  if locked then (.alreadyRunning, [])
  else if owned = false then (.forbidden, [])
  else if current = .processing then (.alreadyProcessing, [])
  else if current = .distances_done then (.alreadyDone, [])
  else if 0 < invalidCount then
    (.rejectedInvalid invalidCount, [.processing, .pending_validation])
  else if creditOk then (.accepted pendingCount, [.processing])
  else (.creditFailed, [.processing, .ready])

/-- Claim C6, counterexample.  A start request on a ready upload with
one invalid row is rejected with the count, but the stored status is
NOT left unchanged: the endpoint first writes processing and then
pending_validation, so an intermediate write is visible and the final
status differs from the initial ready. -/
theorem rejected_request_writes_status :
    startProcessing false true .ready 1 0 true
        = (.rejectedInvalid 1, [.processing, .pending_validation]) ∧
      ([.processing, .pending_validation] : List UStatus) ≠ [] ∧
      ([.processing, .pending_validation] : List UStatus).getLast? ≠ some .ready := by
  exact ⟨rfl, by decide, by decide⟩

/-- Claim C6, amended.  A start request on an unlocked, owned upload
that is in neither processing nor distances_done and still has an
invalid row is rejected with the invalid count, after writing the
status processing and then pending_validation (the upload does start a
transition and ends in pending_validation, not in its prior status). -/
theorem rejected_request_status_trace :
    ∀ (current : UStatus) (invalidCount pendingCount : ℕ) (creditOk : Bool),
      current ≠ .processing → current ≠ .distances_done → 0 < invalidCount →
      startProcessing false true current invalidCount pendingCount creditOk
        = (.rejectedInvalid invalidCount, [.processing, .pending_validation]) := by
  intro current invalidCount pendingCount creditOk h1 h2 h3
  simp [startProcessing, h1, h2, h3]

/-- Witness for the amended claim C6 on a ready upload with one invalid
row. -/
theorem rejected_request_status_trace_witness :
    UStatus.ready ≠ UStatus.processing ∧ UStatus.ready ≠ UStatus.distances_done ∧
      0 < 1 ∧
      startProcessing false true .ready 1 7 true
        = (.rejectedInvalid 1, [.processing, .pending_validation]) := by
  exact ⟨by decide, by decide, by decide,
    rejected_request_status_trace .ready 1 7 true (by decide) (by decide) (by decide)⟩

/-- A stored deliveries row, with the fields the orchestrator writes
(part_006 lines 222 to 236); monetary and label fields are set later by
the pricing engine. -/
structure LegRow where
  upload_id : String
  client_id : String
  destination_address : Option String
  distance_km : Option ℚ
  status : String
deriving DecidableEq, Repr

/-- deleteDeliveriesByUpload of DatabaseService (database.service.ts
lines 491 to 498): delete every deliveries row of the upload. -/
def deleteDeliveriesByUpload (tbl : List LegRow) (uploadId : String) : List LegRow :=
  tbl.filter (fun r => r.upload_id != uploadId)

/-- createDeliveriesBatch of DatabaseService (lines 339 to 346): insert
the given rows. -/
def createDeliveriesBatch (tbl rows : List LegRow) : List LegRow :=
  tbl ++ rows

/-- chunkArray of the orchestrator (part_006 lines 50 to 54): slices of
at most size elements, in order.  The source loops with step size, so
size zero never occurs there (it is called with 200); this definition
returns no chunks for size zero on a non-empty list only after taking
an empty slice, and all lemmas assume 1 ≤ size. -/
def chunkArray {α : Type} (l : List α) (size : ℕ) : List (List α) :=
  match l with
  | [] => []
  | x :: xs => (x :: xs).take size :: chunkArray (xs.drop (size - 1)) size
termination_by l.length
decreasing_by
  simp only [List.length_cons, List.length_drop]
  omega

theorem chunkArray_join_of_le {α : Type} (size : ℕ) (hsize : 1 ≤ size) :
    ∀ (n : ℕ) (l : List α), l.length ≤ n → (chunkArray l size).flatten = l := by
  intro n
  induction n with
  | zero =>
    intro l hl
    have : l = [] := List.eq_nil_of_length_eq_zero (Nat.le_zero.mp hl)
    subst this
    simp [chunkArray]
  | succ n ih =>
    intro l hl
    match l with
    | [] => simp [chunkArray]
    | x :: xs =>
      rw [chunkArray]
      rw [List.flatten_cons]
      obtain ⟨s, rfl⟩ : ∃ s, size = s + 1 :=
        ⟨size - 1, (Nat.succ_pred_eq_of_pos hsize).symm⟩
      have hlen : (xs.drop s).length ≤ n := by
        simp only [List.length_drop]
        have := List.length_cons x xs ▸ hl
        omega
      rw [Nat.add_sub_cancel]
      rw [ih (xs.drop s) hlen]
      rw [List.take_succ_cons, List.cons_append]
      rw [List.take_append_drop]

/-- The chunks of every list under the 200-row chunking concatenate
back to the list. -/
theorem chunkArray_join {α : Type} (size : ℕ) (hsize : 1 ≤ size) (l : List α) :
    (chunkArray l size).flatten = l :=
  chunkArray_join_of_le size hsize l.length l (le_refl _)

/-- Steps 4b and 5 of processUpload (part_006 lines 238 to 257): delete
every leg of a prior run of the upload, then insert the freshly
computed rows in chunks of 200. -/
def processUploadPersistLegs (tbl : List LegRow) (uploadId : String)
    (rows : List LegRow) : List LegRow :=
  (chunkArray rows 200).foldl createDeliveriesBatch
    (deleteDeliveriesByUpload tbl uploadId)

theorem foldl_createDeliveriesBatch (chunks : List (List LegRow)) :
    ∀ (tbl : List LegRow),
      chunks.foldl createDeliveriesBatch tbl = tbl ++ chunks.flatten := by
  induction chunks with
  | nil => intro tbl; simp
  | cons c cs ih =>
    intro tbl
    rw [List.foldl_cons, ih, List.flatten_cons]
    simp [createDeliveriesBatch, List.append_assoc]

/-- Claim C5.  A run of the orchestrator first deletes every stored leg
of the upload and then inserts the rows of the run in chunks of 200;
the final table is the rows of other uploads followed by exactly the
rows of the run, so the legs stored for the upload are exactly the legs
of this run. -/
theorem processUpload_replaces_legs :
    ∀ (tbl : List LegRow) (uploadId : String) (rows : List LegRow),
      (∀ r ∈ rows, r.upload_id = uploadId) →
      processUploadPersistLegs tbl uploadId rows
          = tbl.filter (fun r => r.upload_id != uploadId) ++ rows ∧
        (processUploadPersistLegs tbl uploadId rows).filter
            (fun r => r.upload_id == uploadId) = rows := by
  intro tbl uploadId rows hrows
  have hmain : processUploadPersistLegs tbl uploadId rows
      = tbl.filter (fun r => r.upload_id != uploadId) ++ rows := by
    rw [processUploadPersistLegs, foldl_createDeliveriesBatch,
      chunkArray_join 200 (by norm_num), deleteDeliveriesByUpload]
  refine ⟨hmain, ?_⟩
  rw [hmain, List.filter_append]
  have hleft : (tbl.filter (fun r => r.upload_id != uploadId)).filter
      (fun r => r.upload_id == uploadId) = [] := by
    rw [List.filter_filter]
    apply List.filter_eq_nil_iff.mpr
    intro r _
    by_cases h : r.upload_id = uploadId <;> simp [h]
  have hright : rows.filter (fun r => r.upload_id == uploadId) = rows := by
    apply List.filter_eq_self.mpr
    intro r hr
    simp [hrows r hr]
  rw [hleft, hright, List.nil_append]

/-- A table holding a prior run of upload u1 and a row of another
upload. -/
def c5OldTable : List LegRow :=
  [ { upload_id := "u1", client_id := "c1", destination_address := some "old 1",
      distance_km := some 3, status := "DISTANCE_OK" },
    { upload_id := "u2", client_id := "c9", destination_address := some "other",
      distance_km := some 8, status := "DISTANCE_OK" },
    { upload_id := "u1", client_id := "c1", destination_address := some "old 2",
      distance_km := none, status := "CALCULATION_ERROR" } ]

/-- The freshly computed rows of the new run of upload u1. -/
def c5NewRows : List LegRow :=
  [ { upload_id := "u1", client_id := "c1", destination_address := some "new 1",
      distance_km := some 4, status := "DISTANCE_OK" },
    { upload_id := "u1", client_id := "c2", destination_address := some "new 2",
      distance_km := none, status := "ADDRESS_NOT_FOUND" } ]

/-- Witness for claim C5: reprocessing u1 drops both stale u1 rows,
keeps the u2 row, and stores exactly the two new rows for u1. -/
theorem processUpload_replaces_legs_witness :
    (∀ r ∈ c5NewRows, r.upload_id = "u1") ∧
      (processUploadPersistLegs c5OldTable "u1" c5NewRows).filter
          (fun r => r.upload_id == "u1") = c5NewRows := by
  refine ⟨by decide, ?_⟩
  exact (processUpload_replaces_legs c5OldTable "u1" c5NewRows (by decide)).2

/-- The JavaScript String.trim, as a character-list computation:
whitespace stripped from both ends. -/
def jsTrim (s : String) : String :=
  String.mk (((s.data.dropWhile Char.isWhitespace).reverse.dropWhile
    Char.isWhitespace).reverse)

/-- The distance and status classification of one leg in the
orchestrator (part_006 lines 177 to 218): an empty trimmed origin or
destination yields ADDRESS_NOT_FOUND with a null distance before any
resolver call; a resolver exception yields CALCULATION_ERROR with a
null distance; a non-positive resolved distance yields
ADDRESS_NOT_FOUND with a null distance; otherwise the leg is
DISTANCE_OK with the resolved kilometres. -/
def prepareLeg (originAddress destinationAddress : String)
    (resolver : Except String (ℚ × Bool)) : Option ℚ × String :=
  let o := jsTrim originAddress
  let dst := jsTrim destinationAddress
  if o = "" ∨ dst = "" then (none, "ADDRESS_NOT_FOUND")
  else
    match resolver with
    | .error _ => (none, "CALCULATION_ERROR")
    | .ok (km, _) => if km ≤ 0 then (none, "ADDRESS_NOT_FOUND") else (some km, "DISTANCE_OK")

/-- A deliveries row as selected by applyPricingToUpload
(pricing.service.ts lines 193 to 199). -/
structure DeliveryPriceRow where
  id : String
  upload_id : String
  client_id : Option String
  delivery_date : Option String
  distance_km : Option ℚ
deriving DecidableEq, Repr

/-- The price update applyPricingToUpload prepares for one leg: the
zero sentinel for a null distance, or a calculated price. -/
inductive LegPriceUpdate
  | unpriced
  | priced (pcalc : PriceCalculation)
deriving DecidableEq, Repr

/-- The concrete field values a LegPriceUpdate stores: price_ht,
price_ttc, tva_amount, tva_rate and the applied range label (null in
the unpriced sentinel). -/
def legUpdateFields : LegPriceUpdate → ℚ × ℚ × ℚ × ℚ × Option (ℚ × Option ℚ)
  | .unpriced => (0, 0, 0, 0, none)
  | .priced c => (c.price_ht, c.price_ttc, c.tva_amount, c.tva_rate, some c.applied_range)

/-- The per-leg loop of applyPricingToUpload (pricing.service.ts lines
219 to 256): skip rows with an empty trimmed id; a null distance gets
the zero-sentinel update and is counted in non_priced without touching
the tier grid; otherwise calculatePrice is called (its failure aborts
the run). -/
def applyPricingLegsLoop (rows : List DeliveryPriceRow) (cfg : List TierRow) :
    Except String (List (String × LegPriceUpdate) × ℕ) :=
  match rows with
  | [] => .ok ([], 0)
  | d :: rest =>
    if jsTrim d.id = "" then applyPricingLegsLoop rest cfg
    else
      match d.distance_km with
      | none =>
        match applyPricingLegsLoop rest cfg with
        | .error e => .error e
        | .ok (ups, n) => .ok ((jsTrim d.id, .unpriced) :: ups, n + 1)
      | some dist =>
        match svcCalculatePrice dist cfg with
        | .error e => .error e
        | .ok pcalc =>
          match applyPricingLegsLoop rest cfg with
          | .error e => .error e
          | .ok (ups, n) => .ok ((jsTrim d.id, .priced pcalc) :: ups, n)

/-- Claim C7.  A leg with an empty destination address is stored as
ADDRESS_NOT_FOUND with a null distance whatever the resolver would
answer; during pricing every null-distance leg with a usable id
receives the zero-sentinel update (price fields 0, null applied range,
no tier consulted) and is counted in non_priced. -/
theorem empty_destination_unpriced_pipeline :
    (∀ (origin destination : String) (resolver : Except String (ℚ × Bool)),
        jsTrim destination = "" →
        prepareLeg origin destination resolver = (none, "ADDRESS_NOT_FOUND")) ∧
    (∀ (rows : List DeliveryPriceRow) (cfg : List TierRow)
        (ups : List (String × LegPriceUpdate)) (n : ℕ),
        applyPricingLegsLoop rows cfg = .ok (ups, n) →
        n = (rows.filter (fun d =>
            (jsTrim d.id != "") && (d.distance_km == none))).length ∧
          ∀ d ∈ rows, jsTrim d.id ≠ "" → d.distance_km = none →
            (jsTrim d.id, LegPriceUpdate.unpriced) ∈ ups) ∧
    legUpdateFields .unpriced = (0, 0, 0, 0, none) := by
  refine ⟨?_, ?_, rfl⟩
  · intro origin destination resolver hdst
    simp [prepareLeg, hdst]
  · intro rows
    induction rows with
    | nil =>
      intro cfg ups n h
      rw [applyPricingLegsLoop] at h
      injection h with h
      injection h with h1 h2
      subst h1
      subst h2
      exact ⟨by simp, by simp⟩
    | cons d rest ih =>
      intro cfg ups n h
      rw [applyPricingLegsLoop] at h
      by_cases hid : jsTrim d.id = ""
      · rw [if_pos hid] at h
        obtain ⟨hn, hmem⟩ := ih cfg ups n h
        constructor
        · rw [hn, List.filter_cons]
          simp [hid]
        · intro q hq hqid hqdist
          rcases List.mem_cons.mp hq with rfl | hqr
          · exact absurd hid hqid
          · exact hmem q hqr hqid hqdist
      · rw [if_neg hid] at h
        cases hdist : d.distance_km with
        | none =>
          rw [hdist] at h
          cases hrest : applyPricingLegsLoop rest cfg with
          | error e => rw [hrest] at h; cases h
          | ok pair =>
            obtain ⟨ups', n'⟩ := pair
            rw [hrest] at h
            injection h with h
            injection h with h1 h2
            subst h1
            subst h2
            obtain ⟨hn, hmem⟩ := ih cfg ups' n' hrest
            constructor
            · rw [hn, List.filter_cons]
              simp [hid, hdist]
            · intro q hq hqid hqdist
              rcases List.mem_cons.mp hq with rfl | hqr
              · exact List.mem_cons_self _ _
              · exact List.mem_cons_of_mem _ (hmem q hqr hqid hqdist)
        | some dist =>
          rw [hdist] at h
          dsimp only at h
          cases hcalc : svcCalculatePrice dist cfg with
          | error e => rw [hcalc] at h; cases h
          | ok pcalc =>
            rw [hcalc] at h
            cases hrest : applyPricingLegsLoop rest cfg with
            | error e => rw [hrest] at h; cases h
            | ok pair =>
              obtain ⟨ups', n'⟩ := pair
              rw [hrest] at h
              injection h with h
              injection h with h1 h2
              subst h1
              subst h2
              obtain ⟨hn, hmem⟩ := ih cfg ups' n' hrest
              constructor
              · rw [hn, List.filter_cons]
                simp [hid, hdist]
              · intro q hq hqid hqdist
                rcases List.mem_cons.mp hq with rfl | hqr
                · rw [hqdist] at hdist; cases hdist
                · exact List.mem_cons_of_mem _ (hmem q hqr hqid hqdist)

/-- The three-leg upload of the scenario: the second leg has a null
distance (empty destination at processing time). -/
def c7DemoRows : List DeliveryPriceRow :=
  [ { id := "leg1", upload_id := "u1", client_id := some "c1",
      delivery_date := some "2024-01-01", distance_km := some 2 },
    { id := "leg2", upload_id := "u1", client_id := some "c1",
      delivery_date := some "2024-01-02", distance_km := none },
    { id := "leg3", upload_id := "u1", client_id := some "c2",
      delivery_date := some "2024-01-03", distance_km := some 7 } ]

/-- The updates the pricing loop prepares on the boundary demo grid:
legs 1 and 3 priced, leg 2 the zero sentinel. -/
def c7DemoUpdates : List (String × LegPriceUpdate) :=
  [ ("leg1", .priced (svcPriceOf { start := 0, range_end := some 5, price := 8, tva := 20 })),
    ("leg2", .unpriced),
    ("leg3", .priced (svcPriceOf { start := 5, range_end := none, price := 10, tva := 20 })) ]

/-- Witness for claim C7 on the three-leg scenario: the empty
destination is classified ADDRESS_NOT_FOUND with null distance, and
pricing returns exactly one non-priced leg carrying the zero
sentinel. -/
theorem empty_destination_unpriced_pipeline_witness :
    jsTrim "" = "" ∧
      prepareLeg "10 Rue X, 75001 Paris" "" (.ok (3, true)) = (none, "ADDRESS_NOT_FOUND") ∧
      applyPricingLegsLoop c7DemoRows c1DemoCfg = .ok (c7DemoUpdates, 1) ∧
      ("leg2", LegPriceUpdate.unpriced) ∈ c7DemoUpdates ∧
      legUpdateFields .unpriced = (0, 0, 0, 0, none) := by
  have h := empty_destination_unpriced_pipeline
  have heval : applyPricingLegsLoop c7DemoRows c1DemoCfg = .ok (c7DemoUpdates, 1) := rfl
  have hmem := (h.2.1 c7DemoRows c1DemoCfg c7DemoUpdates 1 heval).2
    { id := "leg2", upload_id := "u1", client_id := some "c1",
      delivery_date := some "2024-01-02", distance_km := none }
    (by decide) (by decide) rfl
  have hid : jsTrim "leg2" = "leg2" := by decide
  rw [hid] at hmem
  exact ⟨by decide, h.1 _ "" _ (by decide), heval, hmem, h.2.2⟩
